import Mathlib

/-!
# gored exchange connectors: Bitz public data and Btse signed requests

A shallow embedding of `exchange/bitz/public.go` and `exchange/btse/api.go`.

Conventions of the embedding

* A Go `error` is its message; `nil` is `none`.
* A method that mutates its receiver or a pointer argument returns the updated value next to
  its Go result.
* Collaborators that live outside the two files (HTTP transport, JSON decoding, HMAC
  primitives, the coin and pair registries, float parsing and printing) are fields of an
  environment record, applied to the same arguments, in the same order, as at the Go call site.
* `float64` values are never computed with by these connectors, only moved around, so their
  type is a parameter `F`.
-/

namespace Gored

/-- A Go error value, identified by its message. -/
abbrev GoError := String

/-- Two's-complement wrap-around of Go's `int64` arithmetic. -/
def wrapInt64 (x : Int) : Int := (x + 2 ^ 63) % 2 ^ 64 - 2 ^ 63

/-! ## Bitz: `exchange/bitz/public.go` -/

namespace Bitz

/-- Modelled from the spec: one element of `TradeHistory.Data`; the struct is declared in the
package's model file, so only the fields `doTradeHistory` reads are kept. `T` is an `int64`
(it is multiplied and stored into the `int64` field `TimeStamp` without conversion); the type
of `ID` is a parameter. -/
structure Trade (ι : Type) where
  ID : ι
  T : Int
  P : String
  N : String
  S : String

/-- Modelled from the spec: the decoded vendor response, `Status` and `Data` being the two
fields `doTradeHistory` reads. -/
structure TradeHistory (ι : Type) where
  Status : Int
  Data : List (Trade ι)

/-- Modelled from the spec: `exchange.TradeDetail`, with the five fields the connector sets.
`δ` is the type of trade directions. -/
structure TradeDetail (F δ : Type) where
  ID : String
  Quantity : F
  TimeStamp : Int
  Rate : F
  Direction : δ

/-- Modelled from the spec: the operation-type tag of `exchange.PublicOperation`. -/
inductive OperationType where
  | TradeHistory
  | Other (tag : String)

/-- Modelled from the spec: `exchange.PublicOperation`, with the fields the connector reads or
writes. `OpType` is the Go field `Type`. -/
structure PublicOperation (π ρ F δ : Type) where
  OpType : OperationType
  Pair : π
  Proxy : ρ
  DebugMode : Bool
  RequestURI : String
  CallResponce : String
  Error : Option GoError
  TradeHistory : List (TradeDetail F δ)

/-- Collaborators of the Bitz connector that are defined outside `public.go`. -/
structure Env (π ρ ι F δ : Type) where
  /-- The constant `API_URL` of the package. -/
  API_URL : String
  /-- The method `e.GetSymbolByPair`. -/
  GetSymbolByPair : π → String
  /-- The call `utils.HttpGetRequest(get)`: from `get.URI` and `get.Proxy` to either the error
  or `get.ResponseBody`. -/
  HttpGetRequest : String → ρ → Except GoError String
  /-- The call `json.Unmarshal(body, &tradeHistory)` on a zero-valued struct. -/
  Unmarshal : String → Except GoError (TradeHistory ι)
  /-- The call `strconv.ParseFloat(s, 64)`. -/
  ParseFloat : String → Except GoError F
  /-- The call `fmt.Sprintf("%v", id)`. -/
  Sprint : ι → String
  /-- The constant `exchange.Buy`. -/
  Buy : δ
  /-- The constant `exchange.Sell`. -/
  Sell : δ
  /-- The zero value of the direction type. -/
  ZeroDirection : δ

variable {π ρ ι F δ : Type}

/-- The `TradeDetail` literal of the loop body followed by the two direction assignments. -/
def tradeDetail (env : Env π ρ ι F δ) (trade : Trade ι) (price amount : F) : TradeDetail F δ :=
  let td : TradeDetail F δ :=
    { ID := env.Sprint trade.ID
      Quantity := amount
      TimeStamp := wrapInt64 (trade.T * 1000)
      Rate := price
      Direction := env.ZeroDirection }
  if trade.S = "buy" then { td with Direction := env.Buy }
  else if trade.S = "sell" then { td with Direction := env.Sell }
  else td

/-- The loop `for i := len(Data) - 1; i > 0; i-- { ... }` of `doTradeHistory`, entered with the
current value of `i`. The guard `i > 0` fails at `0`. An index beyond the slice would be a Go
run-time panic; the loop never reaches one, and that branch ends the call with an error. -/
def tradeLoop (env : Env π ρ ι F δ) (data : List (Trade ι)) :
    Nat → PublicOperation π ρ F δ → PublicOperation π ρ F δ × Option GoError
  | 0, operation => (operation, none)
  | i + 1, operation =>
    match data[i + 1]? with
    | none => (operation, some "index out of range")
    | some trade =>
      match env.ParseFloat trade.P with
      | .error err => ({ operation with Error := some err }, some err)
      | .ok price =>
        match env.ParseFloat trade.N with
        | .error err => ({ operation with Error := some err }, some err)
        | .ok amount =>
          tradeLoop env data i
            { operation with
              TradeHistory := operation.TradeHistory ++ [tradeDetail env trade price amount] }

/-- The method `Bitz.doTradeHistory`. In the branch `tradeHistory.Status != 200` the variable
`err` is the one bound by `if err := json.Unmarshal(...)`, which is `nil` there. The start index
`len(Data) - 1` is `-1` for an empty slice, where the loop does not run; truncated subtraction
gives `0`, where it does not run either. -/
def doTradeHistory (env : Env π ρ ι F δ) (operation : PublicOperation π ρ F δ) :
    PublicOperation π ρ F δ × Option GoError :=
  let symbol := env.GetSymbolByPair operation.Pair
  let strRequestUrl := "/Market/order?symbol=" ++ symbol
  let strUrl := env.API_URL ++ strRequestUrl
  match env.HttpGetRequest strUrl operation.Proxy with
  | .error err => ({ operation with Error := some err }, some err)
  | .ok responseBody =>
    let operation :=
      if operation.DebugMode then
        { operation with RequestURI := strUrl, CallResponce := responseBody }
      else operation
    match env.Unmarshal responseBody with
    | .error err => ({ operation with Error := some err }, some err)
    | .ok tradeHistory =>
      if tradeHistory.Status ≠ 200 then
        ({ operation with Error := none }, none)
      else
        tradeLoop env tradeHistory.Data (tradeHistory.Data.length - 1)
          { operation with TradeHistory := [] }

/-- The method `Bitz.LoadPublicData`. -/
def LoadPublicData (env : Env π ρ ι F δ) (operation : PublicOperation π ρ F δ) :
    PublicOperation π ρ F δ × Option GoError :=
  match operation.OpType with
  | .TradeHistory => doTradeHistory env operation
  | .Other tag => (operation, some ("LoadPublicData :: Operation type invalid: " ++ tag))

/-- A test double for the environment: the transport answers every request with `body`, the
decoder yields `th`, a number is parsed from its decimal digits. -/
def stubEnv (body : String) (th : TradeHistory Nat) : Env Unit Unit Nat Nat String where
  API_URL := "https://apiv2.bitz.com"
  GetSymbolByPair := fun _ => "btc_usdt"
  HttpGetRequest := fun _ _ => .ok body
  Unmarshal := fun _ => .ok th
  ParseFloat := fun s =>
    if s.toList.all Char.isDigit ∧ s ≠ "" then
      .ok (s.toList.foldl (fun n c => 10 * n + (c.toNat - 48)) 0)
    else .error "invalid syntax"
  Sprint := fun n => toString n
  Buy := "b"
  Sell := "s"
  ZeroDirection := ""

/-- An operation asking for the trade history, with an entry left from an earlier call. -/
def stubOperation : PublicOperation Unit Unit Nat String where
  OpType := .TradeHistory
  Pair := ()
  Proxy := ()
  DebugMode := false
  RequestURI := ""
  CallResponce := ""
  Error := none
  TradeHistory := [{ ID := "old", Quantity := 1, TimeStamp := 1, Rate := 1, Direction := "b" }]

/-- A status-200 response with a single trade. -/
def oneTradeResponse : TradeHistory Nat :=
  { Status := 200
    Data := [{ ID := 7, T := 1580000000, P := "7000", N := "2", S := "buy" }] }

/-- A status-200 response with two trades. -/
def twoTradeResponse : TradeHistory Nat :=
  { Status := 200
    Data := [{ ID := 7, T := 1580000000, P := "7000", N := "2", S := "buy" },
             { ID := 8, T := 1580000001, P := "7001", N := "3", S := "sell" }] }

/-- A vendor failure: the body decodes, the status is not 200 and there is no data. -/
def failureResponse : TradeHistory Nat :=
  { Status := -102, Data := [] }

/-- The relation between a trade of the response and the detail the loop body appends for it:
both numbers parse and the detail is the one built from them. -/
def IsImage (env : Env π ρ ι F δ) (td : TradeDetail F δ) (trade : Trade ι) : Prop :=
  ∃ price amount, env.ParseFloat trade.P = .ok price ∧ env.ParseFloat trade.N = .ok amount ∧
    td = tradeDetail env trade price amount

end Bitz

/-! ## Btse: `exchange/btse/api.go` -/

/-- Modelled from the spec: the framework's data-source tag held in `e.Source`. -/
inductive DataSource where
  | EXCHANGE_API
  | JSON_FILE
  | Other (tag : String)

/-- Modelled from the spec: the framework's order states; `Unset` is the zero value. -/
inductive OrderStatus where
  | Unset
  | New
  | Filled
  | Partial
  | Canceling
  | Cancelled
  | Rejected
  | Expired
  | Other

/-- The receiver `e *Btse`: the credentials, the data source and the pair-constraint state
that `GetPairConstraint` reads and `SetPairConstraint` writes. -/
structure Btse (σ : Type) where
  API_KEY : String
  API_SECRET : String
  Source : DataSource
  constraints : σ

namespace Btse

/-- The constant `API_URL`. -/
def API_URL : String := "https://api.btse.com/spot"

/-- A Go `map[string]string` that is not nil, as the partial function from keys to values.
Every map in `api.go` comes from `make`; an assignment into a nil map would be a run-time
panic and has no counterpart here. -/
abbrev Params := String → Option String

/-- The map `make(map[string]string)`. -/
def Params.empty : Params := fun _ => none

/-- The assignment `m[k] = v`. -/
def Params.set (m : Params) (k v : String) : Params := fun x => if x = k then some v else m x

/-- The conversion `string(n)` of an `int64`: the UTF-8 text of the code point `n`, and the
replacement character when `n` is not a valid code point. -/
def stringOfInt64 (n : Int) : String :=
  if 0 ≤ n ∧ n ≤ 0x10FFFF ∧ ¬ (0xD800 ≤ n ∧ n ≤ 0xDFFF) then
    String.singleton (Char.ofNat n.toNat)
  else "\uFFFD"

/-- White space of the JSON grammar. -/
def isJSONSpace (c : Char) : Bool := c = ' ' ∨ c = '\t' ∨ c = '\r' ∨ c = '\n'

/-- Whether `data` is the JSON literal `null`, white space around it allowed. -/
def isJSONNull (data : String) : Bool :=
  ((data.toList.dropWhile isJSONSpace).reverse.dropWhile isJSONSpace).reverse = "null".toList

/-- The call `json.Unmarshal(data, &p)` where `p` is itself a pointer to a struct, as in
`jsonResponse := &JsonResponse{}; json.Unmarshal(..., &jsonResponse)`: on the literal `null`
the decoder sets `p` to nil and reports no error, on any other input it decodes into the
struct `p` points to. `decode` is the decoding of a non-null document. -/
def unmarshalPointer {α : Type} (decode : String → Except GoError α) (data : String) :
    Except GoError (Option α) :=
  if isJSONNull data then .ok none
  else
    match decode data with
    | .error err => .error err
    | .ok a => .ok (some a)

/-- How a Go call ends: it returns, or the goroutine panics. -/
inductive Outcome (α : Type) where
  | returns (a : α)
  | panics (msg : String)

/-- Modelled from the spec: `exchange.Order`, with every field `api.go` reads or writes. A
pointer to a pair is an `Option π`. -/
structure Order (π F : Type) where
  Pair : Option π
  OrderID : String
  Rate : F
  Quantity : F
  Side : String
  Status : OrderStatus
  JsonResponse : String
  DealRate : F
  DealQuantity : F
  CancelStatus : String

/-- Modelled from the spec: the vendor's order record (`PlaceOrder` of the model file). -/
structure PlaceOrder (F : Type) where
  OrderID : String
  AverageFillPrice : F
  FillSize : F

/-- Modelled from the spec: the vendor's response envelope (`JsonResponse` of the model file);
`Data` is the raw JSON of the payload. -/
structure JsonResponse where
  Success : Bool
  Message : String
  Data : String

/-- Modelled from the spec: one entry of the market summary (`PairsData` of the model file).
`symbol` is unexported in Go, so no decoder fills it. -/
structure PairsDataEntry where
  Base : String
  Quote : String
  symbol : String

/-- Modelled from the spec: `exchange.PairConstraint`. -/
structure PairConstraint (π F : Type) where
  PairID : Int
  Pair : Option π
  ExSymbol : String
  MakerFee : F
  TakerFee : F
  LotSize : F
  PriceFilter : F
  Listed : Bool

/-- An HTTP request as `api.go` builds it: `Body` is `none` for a nil body, `Header` lists the
`Header.Add` calls in order. -/
structure Request where
  Method : String
  URL : String
  Body : Option String
  Header : List (String × String)

/-- The first value a request carries for a header name. -/
def Request.header (request : Request) (name : String) : Option String :=
  (request.Header.find? (fun kv => kv.1 = name)).map Prod.snd

/-- An HTTP response: what `ioutil.ReadAll(response.Body)` yields. -/
structure Response where
  Body : Except GoError String

/-- Collaborators of the Btse connector that are defined outside `api.go`. Each field takes its
arguments in the order of the Go call. -/
structure Env (π κ F σ : Type) where
  /-- The method `e.GetName`. -/
  GetName : String
  /-- The method `e.GetSymbolByPair`. -/
  GetSymbolByPair : Option π → String
  /-- The call `strconv.FormatFloat(x, 'f', -1, 64)`. -/
  FormatFloat : F → String
  /-- The zero value of `float64`. -/
  ZeroFloat : F
  /-- The function `exchange.ComputeHmac256NoDecode`. -/
  ComputeHmac256NoDecode : String → String → String
  /-- The function `exchange.ComputeHmac384`. -/
  ComputeHmac384 : String → String → String
  /-- The function `exchange.Map2UrlQuery`. -/
  Map2UrlQuery : Params → String
  /-- The call `json.Marshal(mapParams)`, which cannot fail on a `map[string]string`. -/
  Marshal : Params → String
  /-- The error of `http.NewRequest(method, url, body)`, `none` when the request is made. -/
  NewRequest : String → String → Option GoError
  /-- The call `httpClient.Do(request)`. -/
  Do : Request → Except GoError Response
  /-- The call `json.Unmarshal(data, &placeOrder)` on a zero-valued `PlaceOrder`. -/
  UnmarshalPlaceOrder : String → Except GoError (PlaceOrder F)
  /-- The decoding of a non-null document into a `JsonResponse`. -/
  UnmarshalJsonResponse : String → Except GoError JsonResponse
  /-- The call `exchange.HttpGetRequest(url, params)`; `none` is a nil map. -/
  HttpGetRequest : String → Option Params → String
  /-- The call `json.Unmarshal(data, &pairsData)`. -/
  UnmarshalPairsData : String → Except GoError (List PairsDataEntry)
  /-- The function `coin.GetCoin`. -/
  GetCoin : String → Option κ
  /-- The function `pair.GetPair` on two non-nil coins. -/
  GetPair : κ → κ → Option π
  /-- The method `e.GetPairBySymbol`. -/
  GetPairBySymbol : String → Option π
  /-- The value `pair.Pair{}`. -/
  ZeroPair : π
  /-- The field `ID` of a pair. -/
  PairID : π → Int
  /-- The method `e.GetPairConstraint` on a non-nil pair. -/
  GetPairConstraint : σ → π → Option (PairConstraint π F)
  /-- The method `e.SetPairConstraint`. -/
  SetPairConstraint : σ → PairConstraint π F → σ
  /-- The constant `DEFAULT_MAKER_FEE`. -/
  DEFAULT_MAKER_FEE : F
  /-- The constant `DEFAULT_TAKER_FEE`. -/
  DEFAULT_TAKER_FEE : F
  /-- The constant `DEFAULT_LOT_SIZE`. -/
  DEFAULT_LOT_SIZE : F
  /-- The constant `DEFAULT_PRICE_FILTER`. -/
  DEFAULT_PRICE_FILTER : F

variable {π κ F σ : Type}

/-- The tail of `ApiKeyGet` and `ApiKeyRequest`: send the request and read the body; an error
of either step is returned as its text. -/
def sendRequest (env : Env π κ F σ) (request : Request) : String :=
  match env.Do request with
  | .error err => err
  | .ok response =>
    match response.Body with
    | .error err => err
    | .ok body => body

/-- The map of `ApiKeyRequest` and `ApiKeyGet` after their first assignment,
`mapParams["signature"] = ComputeHmac256NoDecode(Map2UrlQuery(mapParams), e.API_SECRET)`. -/
def signedParams (env : Env π κ F σ) (e : Btse σ) (mapParams : Params) : Params :=
  mapParams.set "signature"
    (env.ComputeHmac256NoDecode (env.Map2UrlQuery mapParams) e.API_SECRET)

/-- The string `ApiKeyGet` passes to `ComputeHmac384` next to the secret. -/
def ApiKeyGet_payload (e : Btse σ) (strRequestPath : String) (_mapParams : Params) : String :=
  strRequestPath ++ e.API_KEY

/-- The request `ApiKeyGet` builds, or the error of `http.NewRequest`. `now` is
`time.Now().Unix()`. The signed copy of the map is computed and then used by nothing: the URL
has no query, the body is nil. -/
def ApiKeyGet_request (env : Env π κ F σ) (e : Btse σ) (now : Int) (strRequestPath : String)
    (mapParams : Params) : Except GoError Request :=
  let _mapParams := signedParams env e mapParams
  let strUrl := API_URL ++ strRequestPath
  match env.NewRequest "GET" strUrl with
  | some err => .error err
  | none =>
    let sign := env.ComputeHmac384 e.API_SECRET (ApiKeyGet_payload e strRequestPath mapParams)
    .ok { Method := "GET"
          URL := strUrl
          Body := none
          Header := [("Content-Type", "application/json; charset=utf-8"),
                     ("btse-api", e.API_KEY),
                     ("btse-nonce", stringOfInt64 now),
                     ("btse-sign", sign)] }

/-- The method `Btse.ApiKeyGet`. -/
def ApiKeyGet (env : Env π κ F σ) (e : Btse σ) (now : Int) (strRequestPath : String)
    (mapParams : Params) : String :=
  match ApiKeyGet_request env e now strRequestPath mapParams with
  | .error err => err
  | .ok request => sendRequest env request

/-- The request `ApiKeyRequest` builds, or the error of `http.NewRequest`. `now` is
`time.Now().Unix()`. The test `nil != mapParams` comes after the assignment into the map, so
it holds; `jsonParams` and `jsonBytes` are two marshallings of the same map. -/
def ApiKeyRequest_request (env : Env π κ F σ) (e : Btse σ) (now : Int)
    (strMethod strRequestPath : String) (mapParams : Params) : Except GoError Request :=
  let strUrl := API_URL ++ strRequestPath
  let mapParams := signedParams env e mapParams
  let jsonParams := env.Marshal mapParams
  match env.NewRequest strMethod strUrl with
  | some err => .error err
  | none =>
    let jsonBytes := env.Marshal mapParams
    let sign := env.ComputeHmac384 e.API_SECRET (strRequestPath ++ e.API_KEY ++ jsonBytes)
    .ok { Method := strMethod
          URL := strUrl
          Body := some jsonParams
          Header := [("Content-Type", "application/json; charset=utf-8"),
                     ("btse-api", e.API_KEY),
                     ("btse-nonce", stringOfInt64 now),
                     ("btse-sign", sign)] }

/-- The method `Btse.ApiKeyRequest`. -/
def ApiKeyRequest (env : Env π κ F σ) (e : Btse σ) (now : Int)
    (strMethod strRequestPath : String) (mapParams : Params) : String :=
  match ApiKeyRequest_request env e now strMethod strRequestPath mapParams with
  | .error err => err
  | .ok request => sendRequest env request

/-- The parameter map `LimitSell` hands to `ApiKeyRequest`. The assignment of "quantity" is
commented out in the source, so `quantity` is not read. -/
def LimitSell_params (env : Env π κ F σ) (pair : Option π) (_quantity rate : F) : Params :=
  (((Params.empty.set "symbol" (env.GetSymbolByPair pair)).set "side" "SELL").set
    "type" "LIMIT").set "price" (env.FormatFloat rate)

/-- The method `Btse.LimitSell`: the order, or nil, and the error. -/
def LimitSell (env : Env π κ F σ) (e : Btse σ) (now : Int) (pair : Option π)
    (quantity rate : F) : Option (Order π F) × Option GoError :=
  if e.API_KEY = "" ∨ e.API_SECRET = "" then
    (none, some (env.GetName ++ " API Key or Secret Key are nil."))
  else
    let strRequestPath := "//api/v3.1/order"
    let mapParams := LimitSell_params env pair quantity rate
    let jsonPlaceReturn := ApiKeyRequest env e now "POST" strRequestPath mapParams
    match env.UnmarshalPlaceOrder jsonPlaceReturn with
    | .error err =>
      (none, some (env.GetName ++ " LimitSell Json Unmarshal Err: " ++ err ++ " "
        ++ jsonPlaceReturn))
    | .ok placeOrder =>
      (some { Pair := pair
              OrderID := placeOrder.OrderID
              Rate := rate
              Quantity := quantity
              Side := "Sell"
              Status := .New
              JsonResponse := jsonPlaceReturn
              DealRate := env.ZeroFloat
              DealQuantity := env.ZeroFloat
              CancelStatus := "" }, none)

/-- The parameter map `LimitBuy` hands to `ApiKeyRequest`. The assignment of "quantity" is
commented out in the source, so `quantity` is not read. -/
def LimitBuy_params (env : Env π κ F σ) (pair : Option π) (_quantity rate : F) : Params :=
  (((Params.empty.set "symbol" (env.GetSymbolByPair pair)).set "side" "BUY").set
    "type" "LIMIT").set "price" (env.FormatFloat rate)

/-- The method `Btse.LimitBuy`: the order, or nil, and the error. -/
def LimitBuy (env : Env π κ F σ) (e : Btse σ) (now : Int) (pair : Option π)
    (quantity rate : F) : Option (Order π F) × Option GoError :=
  if e.API_KEY = "" ∨ e.API_SECRET = "" then
    (none, some (env.GetName ++ " API Key or Secret Key are nil."))
  else
    let strRequestPath := "/api/v3.1/order"
    let mapParams := LimitBuy_params env pair quantity rate
    let jsonPlaceReturn := ApiKeyRequest env e now "POST" strRequestPath mapParams
    match env.UnmarshalPlaceOrder jsonPlaceReturn with
    | .error err =>
      (none, some (env.GetName ++ " LimitBuy Json Unmarshal Err: " ++ err ++ " "
        ++ jsonPlaceReturn))
    | .ok placeOrder =>
      (some { Pair := pair
              OrderID := placeOrder.OrderID
              Rate := rate
              Quantity := quantity
              Side := "Buy"
              Status := .New
              JsonResponse := jsonPlaceReturn
              DealRate := env.ZeroFloat
              DealQuantity := env.ZeroFloat
              CancelStatus := "" }, none)

/-- The parameter map `OrderStatus` hands to `ApiKeyGet`. -/
def OrderStatus_params (env : Env π κ F σ) (order : Order π F) : Params :=
  (Params.empty.set "symbol" (env.GetSymbolByPair order.Pair)).set "orderId" order.OrderID

/-- The method `Btse.OrderStatus` on a non-nil order: the order after the call and the error.
Reading `jsonResponse.Success` through a nil `jsonResponse` panics. -/
def OrderStatus (env : Env π κ F σ) (e : Btse σ) (now : Int) (order : Order π F) :
    Outcome (Order π F × Option GoError) :=
  if e.API_KEY = "" ∨ e.API_SECRET = "" then
    .returns (order, some (env.GetName ++ " API Key or Secret Key are nil."))
  else
    let strRequestPath := "/API Path"
    let mapParams := OrderStatus_params env order
    let jsonOrderStatus := ApiKeyGet env e now strRequestPath mapParams
    match unmarshalPointer env.UnmarshalJsonResponse jsonOrderStatus with
    | .error err =>
      .returns (order, some (env.GetName ++ " OrderStatus Json Unmarshal Err: " ++ err ++ " "
        ++ jsonOrderStatus))
    | .ok none => .panics "invalid memory address or nil pointer dereference"
    | .ok (some jsonResponse) =>
      if !jsonResponse.Success then
        .returns (order, some (env.GetName ++ " OrderStatus Failed: " ++ jsonResponse.Message))
      else
        match env.UnmarshalPlaceOrder jsonResponse.Data with
        | .error err =>
          .returns (order, some (env.GetName ++ " OrderStatus Result Unmarshal Err: " ++ err
            ++ " " ++ jsonResponse.Data))
        | .ok orderStatus =>
          .returns ({ order with DealRate := orderStatus.AverageFillPrice
                                 DealQuantity := orderStatus.FillSize }, none)

/-- The parameter map `CancelOrder` hands to `ApiKeyRequest`. -/
def CancelOrder_params (env : Env π κ F σ) (order : Order π F) : Params :=
  (Params.empty.set "symbol" (env.GetSymbolByPair order.Pair)).set "orderId" order.OrderID

/-- The method `Btse.CancelOrder` on a non-nil order: the order after the call and the error.
Reading `jsonResponse.Success` through a nil `jsonResponse` panics. -/
def CancelOrder (env : Env π κ F σ) (e : Btse σ) (now : Int) (order : Order π F) :
    Outcome (Order π F × Option GoError) :=
  if e.API_KEY = "" ∨ e.API_SECRET = "" then
    .returns (order, some (env.GetName ++ " API Key or Secret Key are nil."))
  else
    let strRequestPath := "/api/v3.1/order"
    let mapParams := CancelOrder_params env order
    let jsonCancelOrder := ApiKeyRequest env e now "DELETE" strRequestPath mapParams
    match unmarshalPointer env.UnmarshalJsonResponse jsonCancelOrder with
    | .error err =>
      .returns (order, some (env.GetName ++ " CancelOrder Json Unmarshal Err: " ++ err ++ " "
        ++ jsonCancelOrder))
    | .ok none => .panics "invalid memory address or nil pointer dereference"
    | .ok (some jsonResponse) =>
      if !jsonResponse.Success then
        .returns (order, some (env.GetName ++ " CancelOrder Failed: " ++ jsonResponse.Message))
      else
        match env.UnmarshalPlaceOrder jsonResponse.Data with
        | .error err =>
          .returns (order, some (env.GetName ++ " CancelOrder Result Unmarshal Err: " ++ err
            ++ " " ++ jsonResponse.Data))
        | .ok _cancelOrder =>
          .returns ({ order with Status := .Canceling, CancelStatus := jsonCancelOrder }, none)

/-- The pair the loop body of `GetPairsData` ends up with before the test `p != nil`. It starts
as `&pair.Pair{}`, which is not nil, and is reassigned only where the `switch` says so. -/
def GetPairsData_pair (env : Env π κ F σ) (e : Btse σ) (data : PairsDataEntry) : Option π :=
  let p : Option π := some env.ZeroPair
  match e.Source with
  | .EXCHANGE_API =>
    let base := env.GetCoin data.Quote
    let target := env.GetCoin data.Base
    match base, target with
    | some base, some target => env.GetPair base target
    | _, _ => p
  | .JSON_FILE => env.GetPairBySymbol data.symbol
  | .Other _ => p

/-- One iteration of the loop of `GetPairsData`: the receiver after the entry `data`. -/
def GetPairsData_entry (env : Env π κ F σ) (e : Btse σ) (data : PairsDataEntry) : Btse σ :=
  match GetPairsData_pair env e data with
  | none => e
  | some p =>
    let pairConstraint : PairConstraint π F :=
      match env.GetPairConstraint e.constraints p with
      | none =>
        { PairID := env.PairID p
          Pair := some p
          ExSymbol := data.symbol
          MakerFee := env.DEFAULT_MAKER_FEE
          TakerFee := env.DEFAULT_TAKER_FEE
          LotSize := env.DEFAULT_LOT_SIZE
          PriceFilter := env.DEFAULT_PRICE_FILTER
          Listed := true }
      | some pairConstraint => { pairConstraint with ExSymbol := data.symbol }
    { e with constraints := env.SetPairConstraint e.constraints pairConstraint }

/-- The method `Btse.GetPairsData`: the receiver after the call and the error. -/
def GetPairsData (env : Env π κ F σ) (e : Btse σ) : Btse σ × Option GoError :=
  let strRequestUrl := "/api/v3.1/market_summary"
  let strUrl := API_URL ++ strRequestUrl
  let jsonSymbolsReturn := env.HttpGetRequest strUrl none
  match env.UnmarshalPairsData jsonSymbolsReturn with
  | .error err =>
    (e, some (env.GetName ++ " Get Pairs Json Unmarshal Err: " ++ err ++ " "
      ++ jsonSymbolsReturn))
  | .ok pairsData => (pairsData.foldl (GetPairsData_entry env) e, none)

/-- The rendering of a map used by the test double: the entries of the keys that `api.go`
uses, in alphabetical order. -/
def renderParams (m : Params) : String :=
  String.intercalate "&"
    ((["orderId", "price", "quantity", "side", "signature", "symbol", "type"].filterMap
      (fun k => (m k).map (fun v => k ++ "=" ++ v))))

/-- A test double for the environment: pairs and coins are numbered, a float is an integer,
the constraint state is the list of the constraints set so far (latest first), the transport
answers every request with `body`, and the two decoders accept a body that starts with an
opening brace. -/
def stubEnv (body : String) : Env Nat Nat Int (List (PairConstraint Nat Int)) where
  GetName := "BTSE"
  GetSymbolByPair := fun p => if p = some 1 then "BTC-USD" else ""
  FormatFloat := fun x => toString x
  ZeroFloat := 0
  ComputeHmac256NoDecode := fun msg secret => "hmac256(" ++ msg ++ ";" ++ secret ++ ")"
  ComputeHmac384 := fun a b => "hmac384(" ++ a ++ ";" ++ b ++ ")"
  Map2UrlQuery := renderParams
  Marshal := renderParams
  NewRequest := fun _ _ => none
  Do := fun _ => .ok { Body := .ok body }
  UnmarshalPlaceOrder := fun s =>
    if s.toList.head? = some (Char.ofNat 123) then
      .ok { OrderID := "42", AverageFillPrice := 0, FillSize := 0 }
    else .error "invalid character"
  UnmarshalJsonResponse := fun s =>
    if s.toList.head? = some (Char.ofNat 123) then
      .ok { Success := true, Message := "", Data := s }
    else .error "invalid character"
  HttpGetRequest := fun _ _ => body
  UnmarshalPairsData := fun _ => .ok [{ Base := "BTC", Quote := "USD", symbol := "" }]
  GetCoin := fun _ => none
  GetPair := fun _ _ => none
  GetPairBySymbol := fun _ => none
  ZeroPair := 0
  PairID := fun p => p
  GetPairConstraint := fun s p => s.find? (fun c => c.PairID = p)
  SetPairConstraint := fun s c => c :: s
  DEFAULT_MAKER_FEE := 1
  DEFAULT_TAKER_FEE := 2
  DEFAULT_LOT_SIZE := 3
  DEFAULT_PRICE_FILTER := 4

/-- A receiver with credentials, in `EXCHANGE_API` mode, with no pair constraint yet. -/
def stubBtse : Btse (List (PairConstraint Nat Int)) where
  API_KEY := "key"
  API_SECRET := "secret"
  Source := .EXCHANGE_API
  constraints := []

/-- An order on pair 1 as `LimitBuy` returns it. -/
def stubOrder (id : String) : Order Nat Int where
  Pair := some 1
  OrderID := id
  Rate := 7000
  Quantity := 2
  Side := "Buy"
  Status := .New
  JsonResponse := ""
  DealRate := 0
  DealQuantity := 0
  CancelStatus := ""

/-- A parameter map in which the caller has put a "signature" entry of its own. -/
def callerSignedParams : Params := Params.empty.set "signature" "caller"

end Btse

/-! ## Properties of the Bitz connector -/

namespace Bitz

variable {π ρ ι F δ : Type}

theorem take_succ_reverse {α : Type} (l : List α) (i : Nat) (a : α) (h : l[i]? = some a) :
    (l.take (i + 1)).reverse = a :: (l.take i).reverse := by
  rw [List.take_succ, h]
  simp

theorem tail_getElem? {α : Type} (l : List α) (i : Nat) : l.tail[i]? = l[i + 1]? := by
  cases l <;> simp

/-- A run of the loop that ends without error appended, in this order, the images of the trades
at indices `i, i - 1, ..., 1`, and changed nothing else. -/
theorem tradeLoop_ok (env : Env π ρ ι F δ) (data : List (Trade ι)) :
    ∀ (i : Nat) (operation : PublicOperation π ρ F δ),
      (tradeLoop env data i operation).2 = none →
      ∃ L, tradeLoop env data i operation
            = ({ operation with TradeHistory := operation.TradeHistory ++ L }, none) ∧
          List.Forall₂ (IsImage env) L (data.tail.take i).reverse := by
  intro i
  induction i with
  | zero =>
    intro operation _
    exact ⟨[], by simp [tradeLoop], by simp⟩
  | succ i ih =>
    intro operation h
    unfold tradeLoop at h ⊢
    cases hd : data[i + 1]? with
    | none => simp [hd] at h
    | some trade =>
      cases hp : env.ParseFloat trade.P with
      | error err => simp [hd, hp] at h
      | ok price =>
        cases hn : env.ParseFloat trade.N with
        | error err => simp [hd, hp, hn] at h
        | ok amount =>
          simp only [hd, hp, hn] at h ⊢
          obtain ⟨L, hL, hF⟩ := ih _ h
          refine ⟨tradeDetail env trade price amount :: L, ?_, ?_⟩
          · rw [hL]; simp
          · rw [take_succ_reverse data.tail i trade (by rw [tail_getElem?]; exact hd)]
            exact List.Forall₂.cons ⟨price, amount, hp, hn, rfl⟩ hF

/-- When the start index is inside the slice and every trade parses, the loop ends without
error. -/
theorem tradeLoop_total (env : Env π ρ ι F δ) (data : List (Trade ι))
    (hparse : ∀ t ∈ data, ∃ price amount,
      env.ParseFloat t.P = .ok price ∧ env.ParseFloat t.N = .ok amount) :
    ∀ (i : Nat) (operation : PublicOperation π ρ F δ), i + 1 ≤ data.length ∨ i = 0 →
      (tradeLoop env data i operation).2 = none := by
  intro i
  induction i with
  | zero => intro operation _; simp [tradeLoop]
  | succ i ih =>
    intro operation hi
    have hlt : i + 1 < data.length := by omega
    unfold tradeLoop
    have hd : data[i + 1]? = some data[i + 1] := List.getElem?_eq_getElem hlt
    obtain ⟨price, amount, hp, hn⟩ := hparse data[i + 1] (List.getElem_mem hlt)
    simp only [hd, hp, hn]
    exact ih _ (Or.inl (by omega))

theorem wrapInt64_of_inRange (x : Int) (hlo : -9223372036854775808 ≤ x)
    (hhi : x ≤ 9223372036854775807) : wrapInt64 x = x := by
  unfold wrapInt64
  norm_num
  omega

/-- The fields of the detail built for a trade, one by one. -/
theorem tradeDetail_fields (env : Env π ρ ι F δ) (trade : Trade ι) (price amount : F) :
    (tradeDetail env trade price amount).TimeStamp = wrapInt64 (1000 * trade.T) ∧
    (tradeDetail env trade price amount).Rate = price ∧
    (tradeDetail env trade price amount).Quantity = amount ∧
    (tradeDetail env trade price amount).ID = env.Sprint trade.ID ∧
    (trade.S = "buy" → (tradeDetail env trade price amount).Direction = env.Buy) ∧
    (trade.S = "sell" → (tradeDetail env trade price amount).Direction = env.Sell) ∧
    (trade.S ≠ "buy" → trade.S ≠ "sell" →
      (tradeDetail env trade price amount).Direction = env.ZeroDirection) := by
  unfold tradeDetail
  rw [mul_comm 1000 trade.T]
  by_cases hb : trade.S = "buy"
  · simp [hb]
  · by_cases hs : trade.S = "sell"
    · simp [hs]
    · simp [hb, hs]

/-- What `doTradeHistory` computes once the response is fetched, decodes and has status 200:
the loop, started at the last index on an emptied history. -/
theorem doTradeHistory_status200 (env : Env π ρ ι F δ) (operation : PublicOperation π ρ F δ)
    (body : String) (th : TradeHistory ι)
    (hget : env.HttpGetRequest
      (env.API_URL ++ ("/Market/order?symbol=" ++ env.GetSymbolByPair operation.Pair))
      operation.Proxy = .ok body)
    (hdec : env.Unmarshal body = .ok th) (hstatus : th.Status = 200) :
    ∃ op0 : PublicOperation π ρ F δ,
      doTradeHistory env operation = tradeLoop env th.Data (th.Data.length - 1) op0 ∧
      op0.TradeHistory = [] := by
  unfold doTradeHistory
  simp only [hget, hdec, hstatus, ne_eq, not_true_eq_false, if_false]
  exact ⟨_, rfl, rfl⟩

theorem forall₂_mem_left {α β : Type} {R : α → β → Prop} {l₁ : List α} {l₂ : List β}
    (h : List.Forall₂ R l₁ l₂) : ∀ a ∈ l₁, ∃ b ∈ l₂, R a b := by
  induction h with
  | nil => intro a ha; simp at ha
  | cons hab _ ih =>
    intro a ha
    rcases List.mem_cons.mp ha with rfl | ha
    · exact ⟨_, List.mem_cons_self _ _, hab⟩
    · obtain ⟨b, hb, hR⟩ := ih a ha
      exact ⟨b, List.mem_cons_of_mem _ hb, hR⟩

/-- C1, as the code behaves: when the response is fetched, decodes, has status 200 and every
trade parses, `LoadPublicData` with type `TradeHistory` returns nil and the history holds the
images of the trades at indices `len - 1` down to `1`, in that order: the trade at index `0` is
never converted, so the history has `len - 1` entries, not `len`. -/
theorem doTradeHistory_skips_first_trade (env : Env π ρ ι F δ)
    (operation : PublicOperation π ρ F δ) (body : String) (th : TradeHistory ι)
    (htype : operation.OpType = .TradeHistory)
    (hget : env.HttpGetRequest
      (env.API_URL ++ ("/Market/order?symbol=" ++ env.GetSymbolByPair operation.Pair))
      operation.Proxy = .ok body)
    (hdec : env.Unmarshal body = .ok th) (hstatus : th.Status = 200)
    (hparse : ∀ t ∈ th.Data, ∃ price amount,
      env.ParseFloat t.P = .ok price ∧ env.ParseFloat t.N = .ok amount) :
    (LoadPublicData env operation).2 = none ∧
    List.Forall₂ (IsImage env) (LoadPublicData env operation).1.TradeHistory
      th.Data.tail.reverse ∧
    (LoadPublicData env operation).1.TradeHistory.length = th.Data.length - 1 := by
  have hload : LoadPublicData env operation = doTradeHistory env operation := by
    unfold LoadPublicData; rw [htype]
  obtain ⟨op0, hrun, hop0⟩ := doTradeHistory_status200 env operation body th hget hdec hstatus
  have hnone : (tradeLoop env th.Data (th.Data.length - 1) op0).2 = none :=
    tradeLoop_total env th.Data hparse _ _ (by omega)
  obtain ⟨L, hL, hF⟩ := tradeLoop_ok env th.Data _ op0 hnone
  have htake : th.Data.tail.take (th.Data.length - 1) = th.Data.tail :=
    List.take_of_length_le (by simp)
  rw [htake] at hF
  rw [hload, hrun, hL]
  simp only [hop0, List.nil_append]
  refine ⟨trivial, hF, ?_⟩
  rw [hF.length_eq]
  simp

/-- C2: on a successful call (fetched, decoded, status 200, nil returned) every detail in
`operation.TradeHistory` is the image of a trade of the response: `TimeStamp` is `1000 * T` in
`int64` arithmetic, which is the exact product whenever that fits in an `int64` (every 10-digit
seconds timestamp does), `Rate` and `Quantity` are the parsed `P` and `N`, `ID` is the text of
the trade's `ID`, and `Direction` is `Buy` for "buy", `Sell` for "sell" and the zero value
otherwise. -/
theorem doTradeHistory_field_mapping (env : Env π ρ ι F δ)
    (operation : PublicOperation π ρ F δ) (body : String) (th : TradeHistory ι)
    (hget : env.HttpGetRequest
      (env.API_URL ++ ("/Market/order?symbol=" ++ env.GetSymbolByPair operation.Pair))
      operation.Proxy = .ok body)
    (hdec : env.Unmarshal body = .ok th) (hstatus : th.Status = 200)
    (hret : (doTradeHistory env operation).2 = none) :
    ∀ td ∈ (doTradeHistory env operation).1.TradeHistory, ∃ trade ∈ th.Data, ∃ price amount,
      env.ParseFloat trade.P = .ok price ∧ env.ParseFloat trade.N = .ok amount ∧
      td.TimeStamp = wrapInt64 (1000 * trade.T) ∧
      (-9223372036854775 ≤ trade.T → trade.T ≤ 9223372036854775 →
        td.TimeStamp = 1000 * trade.T) ∧
      td.Rate = price ∧ td.Quantity = amount ∧ td.ID = env.Sprint trade.ID ∧
      (trade.S = "buy" → td.Direction = env.Buy) ∧
      (trade.S = "sell" → td.Direction = env.Sell) ∧
      (trade.S ≠ "buy" → trade.S ≠ "sell" → td.Direction = env.ZeroDirection) := by
  obtain ⟨op0, hrun, hop0⟩ := doTradeHistory_status200 env operation body th hget hdec hstatus
  rw [hrun] at hret ⊢
  obtain ⟨L, hL, hF⟩ := tradeLoop_ok env th.Data _ op0 hret
  rw [hL]
  simp only [hop0, List.nil_append]
  intro td htd
  obtain ⟨trade, hmem, price, amount, hp, hn, rfl⟩ := forall₂_mem_left hF td htd
  have hdata : trade ∈ th.Data :=
    List.mem_of_mem_tail (List.mem_of_mem_take (List.mem_reverse.mp hmem))
  obtain ⟨h1, h2, h3, h4, h5, h6, h7⟩ := tradeDetail_fields env trade price amount
  refine ⟨trade, hdata, price, amount, hp, hn, h1, ?_, h2, h3, h4, h5, h6, h7⟩
  intro hlo hhi
  rw [h1]
  exact wrapInt64_of_inRange _ (by omega) (by omega)

/-- C10, as the code behaves: when the response is fetched and decodes but its status is not
200, `doTradeHistory` returns nil, not an error, and stores nil in `operation.Error`; the
history is left as it was before the call. -/
theorem doTradeHistory_non200_returns_nil (env : Env π ρ ι F δ)
    (operation : PublicOperation π ρ F δ) (body : String) (th : TradeHistory ι)
    (hget : env.HttpGetRequest
      (env.API_URL ++ ("/Market/order?symbol=" ++ env.GetSymbolByPair operation.Pair))
      operation.Proxy = .ok body)
    (hdec : env.Unmarshal body = .ok th) (hstatus : th.Status ≠ 200) :
    (doTradeHistory env operation).2 = none ∧
    (doTradeHistory env operation).1.Error = none ∧
    (doTradeHistory env operation).1.TradeHistory = operation.TradeHistory := by
  unfold doTradeHistory
  simp only [hget, hdec, ne_eq, hstatus, not_false_eq_true, if_true]
  refine ⟨trivial, trivial, ?_⟩
  by_cases hdbg : operation.DebugMode <;> simp [hdbg]

theorem doTradeHistory_skips_first_trade_witness :
    oneTradeResponse.Data.length = 1 ∧
    (LoadPublicData (stubEnv "r" oneTradeResponse) stubOperation).2 = none ∧
    (LoadPublicData (stubEnv "r" oneTradeResponse) stubOperation).1.TradeHistory.length = 0 :=
  have h := doTradeHistory_skips_first_trade (stubEnv "r" oneTradeResponse) stubOperation "r"
    oneTradeResponse rfl rfl rfl rfl (by
      intro t ht
      simp only [oneTradeResponse, List.mem_singleton] at ht
      subst ht
      exact ⟨7000, 2, rfl, rfl⟩)
  ⟨rfl, h.1, h.2.2⟩

theorem doTradeHistory_field_mapping_witness :
    (doTradeHistory (stubEnv "r" twoTradeResponse) stubOperation).1.TradeHistory
      = [{ ID := "8", Quantity := 3, TimeStamp := 1580000001000, Rate := 7001,
           Direction := "s" }] ∧
    ∀ td ∈ (doTradeHistory (stubEnv "r" twoTradeResponse) stubOperation).1.TradeHistory,
      ∃ trade ∈ twoTradeResponse.Data, ∃ price amount,
        (stubEnv "r" twoTradeResponse).ParseFloat trade.P = .ok price ∧
        (stubEnv "r" twoTradeResponse).ParseFloat trade.N = .ok amount ∧
        td.TimeStamp = wrapInt64 (1000 * trade.T) ∧
        (-9223372036854775 ≤ trade.T → trade.T ≤ 9223372036854775 →
          td.TimeStamp = 1000 * trade.T) ∧
        td.Rate = price ∧ td.Quantity = amount ∧
        td.ID = (stubEnv "r" twoTradeResponse).Sprint trade.ID ∧
        (trade.S = "buy" → td.Direction = (stubEnv "r" twoTradeResponse).Buy) ∧
        (trade.S = "sell" → td.Direction = (stubEnv "r" twoTradeResponse).Sell) ∧
        (trade.S ≠ "buy" → trade.S ≠ "sell" →
          td.Direction = (stubEnv "r" twoTradeResponse).ZeroDirection) :=
  ⟨rfl, doTradeHistory_field_mapping (stubEnv "r" twoTradeResponse) stubOperation "r"
    twoTradeResponse rfl rfl rfl rfl⟩

theorem doTradeHistory_non200_returns_nil_witness :
    failureResponse.Status ≠ 200 ∧
    doTradeHistory (stubEnv "r" failureResponse) stubOperation = (stubOperation, none) :=
  have h := doTradeHistory_non200_returns_nil (stubEnv "r" failureResponse) stubOperation "r"
    failureResponse rfl rfl (by decide)
  ⟨by decide, Prod.ext (by rfl) h.1⟩

end Bitz

/-! ## Properties of the Btse connector -/

namespace Btse

variable {π κ F σ : Type}

theorem Params.set_same (m : Params) (k v : String) : m.set k v k = some v := by
  simp [Params.set]

theorem Params.set_other (m : Params) (k v x : String) (h : x ≠ k) : m.set k v x = m x := by
  simp [Params.set, h]

/-- When the request is made and the round trip succeeds, `ApiKeyRequest` returns the body of
the response. -/
theorem ApiKeyRequest_eq_body (env : Env π κ F σ) (e : Btse σ) (now : Int)
    (strMethod strRequestPath : String) (mapParams : Params) (request : Request)
    (response : Response) (body : String)
    (hreq : ApiKeyRequest_request env e now strMethod strRequestPath mapParams = .ok request)
    (hdo : env.Do request = .ok response) (hbody : response.Body = .ok body) :
    ApiKeyRequest env e now strMethod strRequestPath mapParams = body := by
  simp [ApiKeyRequest, sendRequest, hreq, hdo, hbody]

/-- C3: with a non-empty key and secret, when the text `ApiKeyRequest` returns (the response
body) decodes as a place-order response, `LimitBuy` and `LimitSell` return a nil error and an
order with the given pair, rate and quantity, the order id of the response, status `New`, that
text as `JsonResponse`, and side "Buy" or "Sell"; when it does not decode they return a nil
order and a non-nil error. -/
theorem LimitBuy_LimitSell_result (env : Env π κ F σ) (e : Btse σ) (now : Int)
    (pair : Option π) (quantity rate : F) (hkey : e.API_KEY ≠ "") (hsecret : e.API_SECRET ≠ "") :
    (∀ placeOrder,
      env.UnmarshalPlaceOrder (ApiKeyRequest env e now "POST" "/api/v3.1/order"
        (LimitBuy_params env pair quantity rate)) = .ok placeOrder →
      ∃ order, LimitBuy env e now pair quantity rate = (some order, none) ∧
        order.Pair = pair ∧ order.Rate = rate ∧ order.Quantity = quantity ∧
        order.OrderID = placeOrder.OrderID ∧ order.Status = .New ∧
        order.JsonResponse = ApiKeyRequest env e now "POST" "/api/v3.1/order"
          (LimitBuy_params env pair quantity rate) ∧
        order.Side = "Buy") ∧
    (∀ err,
      env.UnmarshalPlaceOrder (ApiKeyRequest env e now "POST" "/api/v3.1/order"
        (LimitBuy_params env pair quantity rate)) = .error err →
      (LimitBuy env e now pair quantity rate).1 = none ∧
      (LimitBuy env e now pair quantity rate).2 ≠ none) ∧
    (∀ placeOrder,
      env.UnmarshalPlaceOrder (ApiKeyRequest env e now "POST" "//api/v3.1/order"
        (LimitSell_params env pair quantity rate)) = .ok placeOrder →
      ∃ order, LimitSell env e now pair quantity rate = (some order, none) ∧
        order.Pair = pair ∧ order.Rate = rate ∧ order.Quantity = quantity ∧
        order.OrderID = placeOrder.OrderID ∧ order.Status = .New ∧
        order.JsonResponse = ApiKeyRequest env e now "POST" "//api/v3.1/order"
          (LimitSell_params env pair quantity rate) ∧
        order.Side = "Sell") ∧
    (∀ err,
      env.UnmarshalPlaceOrder (ApiKeyRequest env e now "POST" "//api/v3.1/order"
        (LimitSell_params env pair quantity rate)) = .error err →
      (LimitSell env e now pair quantity rate).1 = none ∧
      (LimitSell env e now pair quantity rate).2 ≠ none) := by
  have hk : ¬ (e.API_KEY = "" ∨ e.API_SECRET = "") := by
    rintro (h | h)
    · exact hkey h
    · exact hsecret h
  refine ⟨?_, ?_, ?_, ?_⟩
  · intro placeOrder h
    simp only [LimitBuy, if_neg hk, h]
    exact ⟨_, rfl, rfl, rfl, rfl, rfl, rfl, rfl, rfl⟩
  · intro err h
    simp [LimitBuy, hk, h]
  · intro placeOrder h
    simp only [LimitSell, if_neg hk, h]
    exact ⟨_, rfl, rfl, rfl, rfl, rfl, rfl, rfl, rfl⟩
  · intro err h
    simp [LimitSell, hk, h]

theorem LimitBuy_LimitSell_result_witness :
    (∃ order, LimitBuy (stubEnv "\x7b\"orderID\":\"42\"\x7d") stubBtse 1600000000 (some 1) 2 7000
        = (some order, none) ∧
      order.Pair = some 1 ∧ order.Rate = 7000 ∧ order.Quantity = 2 ∧ order.OrderID = "42" ∧
      order.Status = .New ∧ order.JsonResponse = "\x7b\"orderID\":\"42\"\x7d" ∧
      order.Side = "Buy") ∧
    (LimitSell (stubEnv "bad gateway") stubBtse 1600000000 (some 1) 2 7000).1 = none ∧
    (LimitSell (stubEnv "bad gateway") stubBtse 1600000000 (some 1) 2 7000).2 ≠ none :=
  ⟨(LimitBuy_LimitSell_result (stubEnv "\x7b\"orderID\":\"42\"\x7d") stubBtse
      1600000000 (some 1) 2 7000 (by decide) (by decide)).1
      { OrderID := "42", AverageFillPrice := 0, FillSize := 0 } rfl,
   (LimitBuy_LimitSell_result (stubEnv "bad gateway") stubBtse
      1600000000 (some 1) 2 7000 (by decide) (by decide)).2.2.2 "invalid character" rfl⟩

/-- C4, as the code behaves: the map `LimitBuy` and `LimitSell` hand to `ApiKeyRequest` holds
the symbol of the pair, the side, the type "LIMIT" and the rendered rate, and no entry for the
quantity; orders that differ only in quantity produce the same map. -/
theorem Limit_params_ignore_quantity (env : Env π κ F σ) (pair : Option π)
    (quantity quantity' rate : F) :
    LimitBuy_params env pair quantity rate = LimitBuy_params env pair quantity' rate ∧
    LimitSell_params env pair quantity rate = LimitSell_params env pair quantity' rate ∧
    LimitBuy_params env pair quantity rate "quantity" = none ∧
    LimitSell_params env pair quantity rate "quantity" = none ∧
    LimitBuy_params env pair quantity rate "symbol" = some (env.GetSymbolByPair pair) ∧
    LimitBuy_params env pair quantity rate "side" = some "BUY" ∧
    LimitSell_params env pair quantity rate "side" = some "SELL" ∧
    LimitBuy_params env pair quantity rate "type" = some "LIMIT" ∧
    LimitBuy_params env pair quantity rate "price" = some (env.FormatFloat rate) := by
  refine ⟨rfl, rfl, ?_, ?_, ?_, ?_, ?_, ?_, ?_⟩ <;>
    simp [LimitBuy_params, LimitSell_params, Params.set, Params.empty]

theorem stringOfInt64_of_large (now : Int) (hnow : 1114111 < now) :
    stringOfInt64 now = "\uFFFD" := by
  unfold stringOfInt64
  rw [if_neg]
  omega

theorem ApiKeyGet_request_header (env : Env π κ F σ) (e : Btse σ) (now : Int)
    (strRequestPath : String) (mapParams : Params) (request : Request)
    (hreq : ApiKeyGet_request env e now strRequestPath mapParams = .ok request) :
    request.Method = "GET" ∧ request.URL = API_URL ++ strRequestPath ∧ request.Body = none ∧
    request.header "btse-nonce" = some (stringOfInt64 now) ∧
    request.header "btse-sign"
      = some (env.ComputeHmac384 e.API_SECRET (strRequestPath ++ e.API_KEY)) := by
  unfold ApiKeyGet_request at hreq
  cases hnew : env.NewRequest "GET" (API_URL ++ strRequestPath) with
  | some err => simp [hnew] at hreq
  | none =>
    simp only [hnew, Except.ok.injEq] at hreq
    subst hreq
    simp [Request.header, List.find?, ApiKeyGet_payload]

theorem ApiKeyRequest_request_header (env : Env π κ F σ) (e : Btse σ) (now : Int)
    (strMethod strRequestPath : String) (mapParams : Params) (request : Request)
    (hreq : ApiKeyRequest_request env e now strMethod strRequestPath mapParams = .ok request) :
    request.Method = strMethod ∧ request.URL = API_URL ++ strRequestPath ∧
    request.Body = some (env.Marshal (signedParams env e mapParams)) ∧
    request.header "btse-nonce" = some (stringOfInt64 now) ∧
    request.header "btse-sign"
      = some (env.ComputeHmac384 e.API_SECRET
          (strRequestPath ++ e.API_KEY ++ env.Marshal (signedParams env e mapParams))) := by
  unfold ApiKeyRequest_request at hreq
  cases hnew : env.NewRequest strMethod (API_URL ++ strRequestPath) with
  | some err => simp [hnew] at hreq
  | none =>
    simp only [hnew, Except.ok.injEq] at hreq
    subst hreq
    simp [Request.header, List.find?]

/-- C5, as the code behaves: with a non-empty key and secret, when the response body is the
JSON literal `null`, the decoding succeeds and leaves `jsonResponse` nil, and `CancelOrder`
panics on `jsonResponse.Success` instead of returning an error. -/
theorem CancelOrder_null_body_panics (env : Env π κ F σ) (e : Btse σ) (now : Int)
    (order : Order π F) (hkey : e.API_KEY ≠ "") (hsecret : e.API_SECRET ≠ "")
    (hnull : isJSONNull (ApiKeyRequest env e now "DELETE" "/api/v3.1/order"
      (CancelOrder_params env order)) = true) :
    CancelOrder env e now order
      = .panics "invalid memory address or nil pointer dereference" := by
  have hk : ¬ (e.API_KEY = "" ∨ e.API_SECRET = "") := by
    rintro (h | h)
    · exact hkey h
    · exact hsecret h
  simp only [CancelOrder, if_neg hk, unmarshalPointer, hnull, if_true]

theorem CancelOrder_null_body_panics_witness :
    ApiKeyRequest (stubEnv "null") stubBtse 1600000000 "DELETE" "/api/v3.1/order"
      (CancelOrder_params (stubEnv "null") (stubOrder "42")) = "null" ∧
    CancelOrder (stubEnv "null") stubBtse 1600000000 (stubOrder "42")
      = .panics "invalid memory address or nil pointer dereference" :=
  ⟨rfl, CancelOrder_null_body_panics (stubEnv "null") stubBtse 1600000000 (stubOrder "42")
    (by decide) (by decide) (by rfl)⟩

theorem unmarshalPointer_of_not_null {α : Type} (decode : String → Except GoError α)
    (data : String) (h : isJSONNull data = false) :
    unmarshalPointer decode data
      = (match decode data with
        | .error err => .error err
        | .ok a => .ok (some a)) := by
  simp [unmarshalPointer, h]

/-- On every body other than the literal `null`, `CancelOrder` returns, and it is atomic on
the order: it returns nil exactly when key and secret are non-empty, the body decodes as the
envelope, `Success` is true and `Data` decodes; then only `Status` and `CancelStatus` are set;
otherwise the order is unchanged. -/
theorem CancelOrder_atomic_of_not_null (env : Env π κ F σ) (e : Btse σ) (now : Int)
    (order : Order π F)
    (hnull : isJSONNull (ApiKeyRequest env e now "DELETE" "/api/v3.1/order"
      (CancelOrder_params env order)) = false) :
    ∃ order' err, CancelOrder env e now order = .returns (order', err) ∧
      (err = none ↔ e.API_KEY ≠ "" ∧ e.API_SECRET ≠ "" ∧
        ∃ jsonResponse, env.UnmarshalJsonResponse (ApiKeyRequest env e now "DELETE"
            "/api/v3.1/order" (CancelOrder_params env order)) = .ok jsonResponse ∧
          jsonResponse.Success = true ∧
          ∃ cancelOrder, env.UnmarshalPlaceOrder jsonResponse.Data = .ok cancelOrder) ∧
      (err = none → order' = { order with
        Status := .Canceling
        CancelStatus := ApiKeyRequest env e now "DELETE" "/api/v3.1/order"
          (CancelOrder_params env order) }) ∧
      (err ≠ none → order' = order) := by
  by_cases hk : e.API_KEY = "" ∨ e.API_SECRET = ""
  · simp only [CancelOrder, if_pos hk]
    refine ⟨order, some _, rfl, ?_, ?_, ?_⟩
    · constructor
      · intro h; simp at h
      · rintro ⟨h1, h2, _⟩
        rcases hk with h | h
        · exact absurd h h1
        · exact absurd h h2
    · intro h; simp at h
    · intro _; rfl
  · have hk1 : e.API_KEY ≠ "" := fun h => hk (Or.inl h)
    have hk2 : e.API_SECRET ≠ "" := fun h => hk (Or.inr h)
    simp only [CancelOrder, if_neg hk, unmarshalPointer_of_not_null _ _ hnull]
    cases hjr : env.UnmarshalJsonResponse (ApiKeyRequest env e now "DELETE" "/api/v3.1/order"
        (CancelOrder_params env order)) with
    | error err =>
      refine ⟨order, some _, rfl, ?_, ?_, fun _ => rfl⟩
      · simp
      · intro h; simp at h
    | ok jsonResponse =>
      cases hs : jsonResponse.Success with
      | false =>
        simp only [hs, Bool.not_false, if_true, Bool.false_eq_true, false_and, and_false,
          exists_false, Except.ok.injEq, exists_eq_left']
        refine ⟨order, some _, rfl, ?_, ?_, fun _ => rfl⟩
        · simp
        · intro h; simp at h
      | true =>
        cases hd : env.UnmarshalPlaceOrder jsonResponse.Data with
        | error err =>
          simp only [hs, Bool.not_true, Bool.false_eq_true, if_false, hd]
          refine ⟨order, some _, rfl, ?_, ?_, fun _ => rfl⟩
          · simp [hd]
          · intro h; simp at h
        | ok cancelOrder =>
          simp only [hs, Bool.not_true, Bool.false_eq_true, if_false, hd]
          refine ⟨_, none, rfl, ?_, fun _ => rfl, fun h => absurd rfl h⟩
          simp [hk1, hk2, hs, hd]

/-- C6, as the code behaves: the `btse-nonce` header is `string(time.Now().Unix())`, the
conversion of an integer to the text of that code point, not its decimal text; for every time
after the first 1114111 seconds of 1970 the header of `ApiKeyGet` and of `ApiKeyRequest` is
the replacement character, the same at every second. -/
theorem nonce_is_replacement_character (env : Env π κ F σ) (e : Btse σ) (now : Int)
    (strMethod strRequestPath : String) (mapParams : Params) (getRequest request : Request)
    (hnow : 1114111 < now)
    (hget : ApiKeyGet_request env e now strRequestPath mapParams = .ok getRequest)
    (hreq : ApiKeyRequest_request env e now strMethod strRequestPath mapParams = .ok request) :
    getRequest.header "btse-nonce" = some "\uFFFD" ∧
    request.header "btse-nonce" = some "\uFFFD" := by
  rw [← stringOfInt64_of_large now hnow]
  exact ⟨(ApiKeyGet_request_header env e now strRequestPath mapParams getRequest hget).2.2.2.1,
    (ApiKeyRequest_request_header env e now strMethod strRequestPath mapParams request
      hreq).2.2.2.1⟩

theorem nonce_is_replacement_character_witness :
    (ApiKeyGet_request (stubEnv "") stubBtse 1600000000 "/api/v3.1/order" Params.empty).map
        (fun r => r.header "btse-nonce") = .ok (some "�") ∧
    (ApiKeyRequest_request (stubEnv "") stubBtse 1600000001 "POST" "/api/v3.1/order"
        Params.empty).map (fun r => r.header "btse-nonce") = .ok (some "�") ∧
    toString (1600000000 : Int) ≠ "�" ∧ toString (1600000001 : Int) ≠ "�" :=
  ⟨congrArg Except.ok (nonce_is_replacement_character (stubEnv "") stubBtse 1600000000
      "POST" "/api/v3.1/order" Params.empty _ _ (by decide) rfl rfl).1,
   congrArg Except.ok (nonce_is_replacement_character (stubEnv "") stubBtse 1600000001
      "POST" "/api/v3.1/order" Params.empty _ _ (by decide) rfl rfl).2,
   by decide, by decide⟩

/-- C7, at a map that already has a "signature" entry: the caller's value of that entry is
replaced, so the body sent does not contain every parameter the caller supplied. -/
theorem ApiKeyRequest_overwrites_caller_signature :
    callerSignedParams "signature" = some "caller" ∧
    (ApiKeyRequest_request (stubEnv "") stubBtse 1600000000 "POST" "/api/v3.1/order"
        callerSignedParams).map (fun r => r.Body)
      = .ok (some "signature=hmac256(signature=caller;secret)") ∧
    ¬ (∀ k v, callerSignedParams k = some v →
        signedParams (stubEnv "") stubBtse callerSignedParams k = some v) := by
  refine ⟨rfl, rfl, ?_⟩
  intro h
  have h1 := h "signature" "caller" rfl
  revert h1
  decide

/-- C7, amended: whenever `ApiKeyRequest` makes its request, the body sent is the JSON of the
signed map, the `btse-sign` header is `ComputeHmac384` applied to the secret and to
path ++ key ++ that same body, the signed map agrees with the caller's map on every key other
than "signature", and its "signature" entry is `ComputeHmac256NoDecode` applied to the query
form of the caller's map and to the secret. -/
theorem ApiKeyRequest_signature (env : Env π κ F σ) (e : Btse σ) (now : Int)
    (strMethod strRequestPath : String) (mapParams : Params) (request : Request)
    (hreq : ApiKeyRequest_request env e now strMethod strRequestPath mapParams = .ok request) :
    ∃ B, request.Body = some B ∧ B = env.Marshal (signedParams env e mapParams) ∧
      request.header "btse-sign"
        = some (env.ComputeHmac384 e.API_SECRET (strRequestPath ++ e.API_KEY ++ B)) ∧
      signedParams env e mapParams "signature"
        = some (env.ComputeHmac256NoDecode (env.Map2UrlQuery mapParams) e.API_SECRET) ∧
      ∀ k, k ≠ "signature" → signedParams env e mapParams k = mapParams k := by
  obtain ⟨_, _, hbody, _, hsign⟩ :=
    ApiKeyRequest_request_header env e now strMethod strRequestPath mapParams request hreq
  exact ⟨_, hbody, rfl, hsign, Params.set_same _ _ _, fun k hk => Params.set_other _ _ _ k hk⟩

theorem ApiKeyRequest_signature_witness :
    ∃ B, (some "side=SELL&signature=hmac256(side=SELL;secret)" : Option String) = some B ∧
      B = (stubEnv "").Marshal (signedParams (stubEnv "") stubBtse
        (Params.empty.set "side" "SELL")) ∧
      (some ("hmac384(secret;/api/v3.1/orderkeyside=SELL&signature=hmac256(side=SELL;secret))")
          : Option String)
        = some ((stubEnv "").ComputeHmac384 stubBtse.API_SECRET
            ("/api/v3.1/order" ++ stubBtse.API_KEY ++ B)) ∧
      signedParams (stubEnv "") stubBtse (Params.empty.set "side" "SELL") "signature"
        = some ((stubEnv "").ComputeHmac256NoDecode
            ((stubEnv "").Map2UrlQuery (Params.empty.set "side" "SELL")) stubBtse.API_SECRET) ∧
      ∀ k, k ≠ "signature" →
        signedParams (stubEnv "") stubBtse (Params.empty.set "side" "SELL") k
          = (Params.empty.set "side" "SELL") k :=
  ApiKeyRequest_signature (stubEnv "") stubBtse 1600000000 "POST" "/api/v3.1/order"
    (Params.empty.set "side" "SELL")
    { Method := "POST"
      URL := "https://api.btse.com/spot/api/v3.1/order"
      Body := some "side=SELL&signature=hmac256(side=SELL;secret)"
      Header := [("Content-Type", "application/json; charset=utf-8"), ("btse-api", "key"),
        ("btse-nonce", "�"),
        ("btse-sign",
          "hmac384(secret;/api/v3.1/orderkeyside=SELL&signature=hmac256(side=SELL;secret))")] }
    rfl

/-- C8, as the code behaves: the string `ApiKeyGet` signs is path ++ key and the request it
makes has no query and no body, so neither depends on the parameter map: two calls that differ
only in their parameters, such as `OrderStatus` for two order ids, sign the same payload, make
the same request and get the same answer. -/
theorem ApiKeyGet_ignores_params (env : Env π κ F σ) (e : Btse σ) (now : Int)
    (strRequestPath : String) (mapParams mapParams' : Params) (order order' : Order π F) :
    ApiKeyGet_payload e strRequestPath mapParams = strRequestPath ++ e.API_KEY ∧
    ApiKeyGet_payload e strRequestPath mapParams
      = ApiKeyGet_payload e strRequestPath mapParams' ∧
    ApiKeyGet_request env e now strRequestPath mapParams
      = ApiKeyGet_request env e now strRequestPath mapParams' ∧
    ApiKeyGet env e now strRequestPath mapParams
      = ApiKeyGet env e now strRequestPath mapParams' ∧
    ApiKeyGet_request env e now "/API Path" (OrderStatus_params env order)
      = ApiKeyGet_request env e now "/API Path" (OrderStatus_params env order') :=
  ⟨rfl, rfl, rfl, rfl, rfl⟩

/-- C9, as the code behaves: in `EXCHANGE_API` mode an entry whose base or quote coin is not
registered keeps `p` at its initial value `&pair.Pair{}`, which is not nil, so the entry does
call `SetPairConstraint`, with a constraint carrying the entry's symbol; when the empty pair
has no constraint yet, that constraint is a new one for the empty pair. -/
theorem GetPairsData_unregistered_coin_sets_constraint (env : Env π κ F σ) (e : Btse σ)
    (data : PairsDataEntry) (hsrc : e.Source = .EXCHANGE_API)
    (hcoin : env.GetCoin data.Base = none ∨ env.GetCoin data.Quote = none) :
    ∃ pairConstraint,
      (GetPairsData_entry env e data).constraints
        = env.SetPairConstraint e.constraints pairConstraint ∧
      pairConstraint.ExSymbol = data.symbol ∧
      (env.GetPairConstraint e.constraints env.ZeroPair = none →
        pairConstraint.PairID = env.PairID env.ZeroPair ∧
        pairConstraint.Pair = some env.ZeroPair) := by
  have hp : GetPairsData_pair env e data = some env.ZeroPair := by
    unfold GetPairsData_pair
    rw [hsrc]
    rcases hcoin with h | h
    · cases hq : env.GetCoin data.Quote <;> simp [h]
    · simp [h]
  simp only [GetPairsData_entry, hp]
  cases hc : env.GetPairConstraint e.constraints env.ZeroPair with
  | none => exact ⟨_, rfl, rfl, fun _ => ⟨rfl, rfl⟩⟩
  | some pc => exact ⟨_, rfl, rfl, fun h => by simp at h⟩

theorem GetPairsData_unregistered_coin_sets_constraint_witness :
    (stubEnv "").GetCoin "BTC" = none ∧ stubBtse.constraints = [] ∧
    GetPairsData (stubEnv "") stubBtse
      = ({ stubBtse with
            constraints := [{ PairID := 0, Pair := some 0, ExSymbol := "", MakerFee := 1,
                              TakerFee := 2, LotSize := 3, PriceFilter := 4, Listed := true }] },
         none) ∧
    ∃ pairConstraint,
      (GetPairsData_entry (stubEnv "") stubBtse
          { Base := "BTC", Quote := "USD", symbol := "" }).constraints
        = (stubEnv "").SetPairConstraint stubBtse.constraints pairConstraint ∧
      pairConstraint.ExSymbol = "" ∧
      ((stubEnv "").GetPairConstraint stubBtse.constraints (stubEnv "").ZeroPair = none →
        pairConstraint.PairID = (stubEnv "").PairID (stubEnv "").ZeroPair ∧
        pairConstraint.Pair = some (stubEnv "").ZeroPair) :=
  ⟨rfl, rfl, rfl, GetPairsData_unregistered_coin_sets_constraint (stubEnv "") stubBtse
    { Base := "BTC", Quote := "USD", symbol := "" } rfl (Or.inl rfl)⟩

end Btse

end Gored
